import Mathlib

/-!
Shallow embedding of the lead-triage pipeline (intake API, triage worker,
insights API, rule-based classifier) and proofs of the specification claims.

Conventions of the embedding:
* Python floats are modelled over `ℚ` (the code only ever computes with the
  literals 0.2, 0.3, 0.9 and small sums of them).
* `str.lower` is modelled on the ASCII and Russian Cyrillic ranges, the only
  alphabets occurring in the classifier's keyword tables.
* Machine-generated identifiers (UUIDs) are modelled as natural numbers below
  `2 ^ 128`; timestamps as a broken-down UTC structure.
* Fallible store / network operations are modelled by explicit fault
  parameters; exceptions become `Option` / explicit result constructors.
-/

namespace LeadTriage

/-- Intent classification values, from `common/enums.py` (`IntentEnum`). -/
inductive IntentEnum
  | buy
  | support
  | spam
  | job
  | other
  deriving DecidableEq

/-- Priority levels, from `common/enums.py` (`PriorityEnum`). -/
inductive PriorityEnum
  | P0
  | P1
  | P2
  | P3
  deriving DecidableEq

/-- Next-action values, from `common/enums.py` (`NextActionEnum`). -/
inductive NextActionEnum
  | call
  | email
  | ignore
  | qualify
  deriving DecidableEq

/-- Pydantic's by-value enum coercion for `IntentEnum`. -/
def IntentEnum.ofValue : String → Option IntentEnum
  | "buy" => some .buy
  | "support" => some .support
  | "spam" => some .spam
  | "job" => some .job
  | "other" => some .other
  | _ => none

/-- Pydantic's by-value enum coercion for `PriorityEnum`. -/
def PriorityEnum.ofValue : String → Option PriorityEnum
  | "P0" => some .P0
  | "P1" => some .P1
  | "P2" => some .P2
  | "P3" => some .P3
  | _ => none

/-- Pydantic's by-value enum coercion for `NextActionEnum`. -/
def NextActionEnum.ofValue : String → Option NextActionEnum
  | "call" => some .call
  | "email" => some .email
  | "ignore" => some .ignore
  | "qualify" => some .qualify
  | _ => none

/-- Boolean substring test on character lists: does `p` occur contiguously in
`s`?  Models the Python expression `p in s` on `str` values. -/
def hasSub : List Char → List Char → Bool
  | [], p => p.isEmpty
  | c :: t, p => p.isPrefixOf (c :: t) || hasSub t p

/-- Python `str.lower` on a single character, restricted to ASCII letters and
the Russian Cyrillic block (the only alphabets used by the keyword tables of
`rule_based.py`).  Other characters are left unchanged. -/
def pyLowerChar (c : Char) : Char :=
  if 65 ≤ c.toNat ∧ c.toNat ≤ 90 then Char.ofNat (c.toNat + 32)
  else if 0x410 ≤ c.toNat ∧ c.toNat ≤ 0x42F then Char.ofNat (c.toNat + 0x20)
  else if c.toNat = 0x401 then Char.ofNat 0x451
  else c

/-- Python `str.lower` (see `pyLowerChar`). -/
def pyLower (s : String) : String :=
  String.mk (s.data.map pyLowerChar)

/-- Python `kw in note` on strings. -/
def containsKw (note kw : String) : Bool :=
  hasSub note.data kw.data

/-- Python `any(keyword in note for keyword in kws)`. -/
def anyKwIn (note : String) (kws : List String) : Bool :=
  kws.any (fun k => containsKw note k)

/-- Ordered-dict lookup (`d.get(k)`), modelling Python dicts as insertion-order
association lists. -/
def alistGet {α : Type} (l : List (String × α)) (k : String) : Option α :=
  (l.find? (fun p => p.1 == k)).map (fun p => p.2)

/-- Intent keyword table from `RuleBasedLLM.__init__` (`intent_rules`), in dict
insertion order.  Each entry: intent key, keyword list, default priority. -/
def intent_rules : List (String × List String × String) :=
  [("buy", (["цена", "стоимость", "купить", "заказ", "прайс", "стоит",
             "price", "cost", "buy"], "P1")),
   ("support", (["помощь", "сломал", "ошибка", "не работает", "bug",
                 "help", "support"], "P2")),
   ("job", (["вакансия", "резюме", "работа", "карьера", "job", "career"], "P3")),
   ("spam", (["http://", "https://", "www.", ".com", "реклама", "spam"], "P3"))]

/-- Priority keyword table from `RuleBasedLLM.__init__` (`priority_rules`), in
dict insertion order. -/
def priority_rules : List (String × List String) :=
  [("P0", ["срочно", "urgent", "asap", "немедленно", "критично"]),
   ("P1", ["скоро", "soon", "ближайшее время", "недолго"]),
   ("P2", []),
   ("P3", ["когда-нибудь", "потом", "не спеша"])]

/-- Next-action table from `RuleBasedLLM.__init__` (`action_rules`). -/
def action_rules : List (String × List (String × String)) :=
  [("buy", [("P0", "call"), ("P1", "email"), ("P2", "email"), ("P3", "qualify")]),
   ("support", [("P0", "call"), ("P1", "email"), ("P2", "email"), ("P3", "email")]),
   ("job", [("P0", "email"), ("P1", "email"), ("P2", "email"), ("P3", "ignore")]),
   ("spam", [("P0", "ignore"), ("P1", "ignore"), ("P2", "ignore"), ("P3", "ignore")]),
   ("other", [("P0", "qualify"), ("P1", "qualify"), ("P2", "qualify"), ("P3", "ignore")])]

/-- `RuleBasedLLM._detect_intent`: return the first intent (in dict order)
one of whose keywords occurs in the note; else `"other"`. -/
def detect_intent (note : String) : String :=
  match intent_rules.find? (fun r => anyKwIn note r.2.1) with
  | some r => r.1
  | none => "other"

/-- `RuleBasedLLM._detect_priority`: return the first priority (in dict order)
one of whose keywords occurs in the note; else the intent's default priority
(`intent_rules.get(intent, {}).get("priority", "P2")`). -/
def detect_priority (note intent : String) : String :=
  match priority_rules.find? (fun r => anyKwIn note r.2) with
  | some r => r.1
  | none =>
    match alistGet intent_rules intent with
    | some r => r.2
    | none => "P2"

/-- `RuleBasedLLM._get_next_action`:
`action_rules.get(intent, {}).get(priority, "qualify")`. -/
def get_next_action (intent priority : String) : String :=
  match alistGet action_rules intent with
  | some m =>
    match alistGet m priority with
    | some a => a
    | none => "qualify"
  | none => "qualify"

/-- `RuleBasedLLM._calculate_confidence`: `0.3` for `"other"`, otherwise
`min(0.3 + matches * 0.2, 0.9)` where `matches` counts the intent's keywords
occurring in the note. -/
def calculate_confidence (note intent : String) : ℚ :=
  if intent = "other" then 3/10
  else
    let keywords : List String :=
      match alistGet intent_rules intent with
      | some r => r.1
      | none => []
    let matchCount : ℕ := (keywords.filter (fun k => containsKw note k)).length
    min (3/10 + (matchCount : ℚ) * (2/10)) (9/10)

/-- `RuleBasedLLM._generate_tags`: orthogonal keyword scans appending
`"urgent"`, `"enterprise"`, `"trial"`. -/
def generate_tags (note : String) : List String :=
  (if anyKwIn note ["срочно", "urgent", "asap"] then ["urgent"] else []) ++
  (if anyKwIn note ["предприятие", "бизнес", "enterprise"] then ["enterprise"] else []) ++
  (if anyKwIn note ["пробный", "trial", "демо"] then ["trial"] else [])

/-- Classifier result (`common/schemas.py`, `LLMResponse`). -/
structure LLMResponse where
  intent : IntentEnum
  priority : PriorityEnum
  next_action : NextActionEnum
  confidence : ℚ
  tags : Option (List String)
  deriving DecidableEq

/-- Pydantic validation of an `LLMResponse` from the classifier's raw string
fields, including the `0.0 ≤ confidence ≤ 1.0` field constraint. -/
def mkLLMResponse (intent priority next_action : String) (confidence : ℚ)
    (tags : Option (List String)) : Option LLMResponse := do
  let i ← IntentEnum.ofValue intent
  let p ← PriorityEnum.ofValue priority
  let a ← NextActionEnum.ofValue next_action
  if 0 ≤ confidence ∧ confidence ≤ 1 then
    some ⟨i, p, a, confidence, tags⟩
  else
    none

/-- `RuleBasedLLM.triage`: lower-case the note, detect intent, priority,
next action, confidence and tags, and validate the response schema. -/
def triage (note : String) : Option LLMResponse :=
  let note_lower := pyLower note
  let intent := detect_intent note_lower
  let priority := detect_priority note_lower intent
  let next_action := get_next_action intent priority
  let confidence := calculate_confidence note_lower intent
  let tags := generate_tags note_lower
  mkLLMResponse intent priority next_action confidence (some tags)

/-! Wire serialization: UUIDs and timestamps.

Machine identifiers are modelled as natural numbers below `2 ^ 128`.
`uuidStr` models Python `str(uuid)` (canonical lowercase 8-4-4-4-12 hex);
`uuidParse` models `uuid.UUID(hex)` (strip dashes, require 32 hex digits).
`isoStr` models `datetime.isoformat()` on a naive UTC datetime; `dtParse`
models the ISO-8601 subset pydantic accepts that covers those outputs. -/

/-- Hex / decimal digit to character (`0`-`9`, then lowercase `a`-`f`). -/
def digitChar (d : Nat) : Char :=
  if d < 10 then Char.ofNat (48 + d) else Char.ofNat (87 + d)

/-- Character to digit value; accepts `0`-`9`, `a`-`f` and `A`-`F`. -/
def digitVal (c : Char) : Option Nat :=
  if 48 ≤ c.toNat ∧ c.toNat ≤ 57 then some (c.toNat - 48)
  else if 97 ≤ c.toNat ∧ c.toNat ≤ 102 then some (c.toNat - 87)
  else if 65 ≤ c.toNat ∧ c.toNat ≤ 70 then some (c.toNat - 55)
  else none

/-- Fixed-width base-`b` rendering of `n`, most significant digit first. -/
def renderNat (b : Nat) : Nat → Nat → List Char
  | _, 0 => []
  | n, w + 1 => renderNat b (n / b) w ++ [digitChar (n % b)]

/-- Accumulating base-`b` digit parser; fails on a non-digit or a digit `≥ b`. -/
def parseDigitsAux (b : Nat) (acc : Nat) : List Char → Option Nat
  | [] => some acc
  | c :: cs =>
    match digitVal c with
    | some d => if d < b then parseDigitsAux b (acc * b + d) cs else none
    | none => none

/-- Base-`b` digit-string parser. -/
def parseDigits (b : Nat) (cs : List Char) : Option Nat :=
  parseDigitsAux b 0 cs

/-- The 32 hex digits of a 128-bit value. -/
def uuidChars (n : Nat) : List Char :=
  renderNat 16 n 32

/-- Python `str(uuid)`: canonical lowercase hex in 8-4-4-4-12 groups. -/
def uuidStr (n : Nat) : String :=
  let d := uuidChars n
  String.mk (d.take 8 ++ '-' :: (d.drop 8).take 4 ++ '-' :: (d.drop 12).take 4 ++
    '-' :: (d.drop 16).take 4 ++ '-' :: d.drop 20)

/-- Python `uuid.UUID(s)`: remove dashes, require exactly 32 hex digits. -/
def uuidParse (s : String) : Option Nat :=
  let hexs := s.data.filter (fun c => c != '-')
  if hexs.length = 32 then parseDigits 16 hexs else none

/-- Broken-down naive UTC timestamp (Python `datetime`). -/
structure DateTimeV where
  year : Nat
  month : Nat
  day : Nat
  hour : Nat
  minute : Nat
  second : Nat
  microsecond : Nat
  deriving DecidableEq

/-- Days in a calendar month (proleptic Gregorian, as Python `datetime`). -/
def daysInMonth (y m : Nat) : Nat :=
  if m = 2 then (if (y % 4 = 0 ∧ y % 100 ≠ 0) ∨ y % 400 = 0 then 29 else 28)
  else if m = 4 ∨ m = 6 ∨ m = 9 ∨ m = 11 then 30
  else 31

/-- Field-range validity of a timestamp (the check `datetime.__new__` makes). -/
def DateTimeV.validB (t : DateTimeV) : Bool :=
  1 ≤ t.year && t.year ≤ 9999 && 1 ≤ t.month && t.month ≤ 12 &&
  1 ≤ t.day && t.day ≤ daysInMonth t.year t.month &&
  t.hour < 24 && t.minute < 60 && t.second < 60 && t.microsecond < 1000000

/-- Python `datetime.isoformat()` on a naive datetime: the fractional part is
omitted when `microsecond` is zero, else written as six digits. -/
def isoStr (t : DateTimeV) : String :=
  String.mk (renderNat 10 t.year 4 ++ '-' :: renderNat 10 t.month 2 ++
    '-' :: renderNat 10 t.day 2 ++ 'T' :: renderNat 10 t.hour 2 ++
    ':' :: renderNat 10 t.minute 2 ++ ':' :: renderNat 10 t.second 2 ++
    (if t.microsecond = 0 then [] else '.' :: renderNat 10 t.microsecond 6))

/-- Read a fixed-width base-`b` number off the front of a character list. -/
def expectNat (b k : Nat) (cs : List Char) : Option (Nat × List Char) :=
  let pre := cs.take k
  if pre.length = k then (parseDigits b pre).map (fun n => (n, cs.drop k)) else none

/-- Require a specific leading character. -/
def expectChar (c : Char) : List Char → Option (List Char)
  | [] => none
  | x :: xs => if x = c then some xs else none

/-- Parse the optional fractional-seconds suffix: empty means zero
microseconds; otherwise a dot followed by one to six digits, right-padded
with zeros to microseconds (as pydantic's ISO-8601 parsing does). -/
def parseMicro : List Char → Option Nat
  | [] => some 0
  | c :: fs =>
    if c = '.' then
      if 1 ≤ fs.length ∧ fs.length ≤ 6 then
        (parseDigits 10 fs).map (fun v => v * 10 ^ (6 - fs.length))
      else none
    else none

/-- Require the ISO date-time separator: `T` or a space. -/
def expectSep : List Char → Option (List Char)
  | c :: rest => if c = 'T' ∨ c = ' ' then some rest else none
  | _ => none

/-- Parse the naive ISO-8601 subset `YYYY-MM-DD[T ]HH:MM:SS[.ffffff]` that
covers every `isoStr` output, validating field ranges as `datetime` does. -/
def dtParse (s : String) : Option DateTimeV := do
  let (y, r1) ← expectNat 10 4 s.data
  let r2 ← expectChar '-' r1
  let (mo, r3) ← expectNat 10 2 r2
  let r4 ← expectChar '-' r3
  let (d, r5) ← expectNat 10 2 r4
  let r6 ← expectSep r5
  let (h, r7) ← expectNat 10 2 r6
  let r8 ← expectChar ':' r7
  let (mi, r9) ← expectNat 10 2 r8
  let r10 ← expectChar ':' r9
  let (sec, r11) ← expectNat 10 2 r10
  let micro ← parseMicro r11
  let t : DateTimeV := ⟨y, mo, d, h, mi, sec, micro⟩
  if t.validB then some t else none

/-- Raw stream entry: the six all-string fields published by
`redis.xadd` in `lead_routes.create_lead` (lines 100-107). -/
structure WireEvent where
  event_id : String
  type : String
  lead_id : String
  note : String
  content_hash : String
  occurred_at : String
  deriving DecidableEq

/-- Parsed `lead.created` event (`common/schemas.py`, `LeadEvent`): UUID
fields as 128-bit values, `occurred_at` as a datetime; the `type` field is
the literal `"lead.created"`. -/
structure LeadEvent where
  event_id : Nat
  type : String
  lead_id : Nat
  note : String
  content_hash : String
  occurred_at : DateTimeV
  deriving DecidableEq

/-- Well-formedness of a `LeadEvent` value: UUIDs are 128-bit, the `type`
literal holds, and the timestamp is a valid datetime. -/
def LeadEvent.wf (e : LeadEvent) : Prop :=
  e.event_id < 2 ^ 128 ∧ e.lead_id < 2 ^ 128 ∧ e.type = "lead.created" ∧
    e.occurred_at.validB = true

/-- Serialization of a `LeadCreatedEvent` to its wire form: every field
becomes a string, exactly as the `xadd` call in `create_lead` writes it. -/
def serializeLeadEvent (e : LeadEvent) : WireEvent :=
  ⟨uuidStr e.event_id, e.type, uuidStr e.lead_id, e.note, e.content_hash,
    isoStr e.occurred_at⟩

/-- Parsing of a wire entry with the `LeadEvent` pydantic schema
(`MessageProcessor._validate_message`): UUID fields are parsed, the `type`
literal is checked, `occurred_at` is parsed and validated. -/
def parseLeadEvent (w : WireEvent) : Option LeadEvent := do
  let eid ← uuidParse w.event_id
  if w.type = "lead.created" then
    let lid ← uuidParse w.lead_id
    let t ← dtParse w.occurred_at
    some ⟨eid, "lead.created", lid, w.note, w.content_hash, t⟩
  else none

/-! Insight store and triage worker processing. -/

/-- Row of the `insights` table (`common/models.py`, `Insight`).  The
server-generated `id` and `created_at` columns are elided: no claim
mentions them and they play no part in the unique constraint. -/
structure InsightRow where
  lead_id : Nat
  content_hash : String
  intent : IntentEnum
  priority : PriorityEnum
  next_action : NextActionEnum
  confidence : ℚ
  tags : Option (List String)
  deriving DecidableEq

/-- Match on the unique-constraint key `(lead_id, content_hash)`
(`uq_lead_content`). -/
def sameKey (l : Nat) (h : String) (row : InsightRow) : Bool :=
  row.lead_id == l && row.content_hash == h

/-- Number of rows with a given `(lead_id, content_hash)` key. -/
def keyCount (db : List InsightRow) (l : Nat) (h : String) : Nat :=
  (db.filter (sameKey l h)).length

/-- The store invariant of the unique constraint: at most one insight row
per `(lead_id, content_hash)`. -/
def UniquePerKey (db : List InsightRow) : Prop :=
  ∀ l h, keyCount db l h ≤ 1

/-- SQLAlchemy `Result.scalar_one_or_none`: `none` on zero rows, the row on
exactly one, and an exception (`MultipleResultsFound`) on several. -/
def scalarOneOrNone {α : Type} (rows : List α) : Except Unit (Option α) :=
  match rows with
  | [] => .ok none
  | [r] => .ok (some r)
  | _ => .error ()

/-- `InsightService.insight_exists`: select rows by `(lead_id, content_hash)`
and test `scalar_one_or_none` for `None`; a multiple-row result raises. -/
def insight_exists (db : List InsightRow) (l : Nat) (h : String) :
    Except Unit Bool :=
  (scalarOneOrNone (db.filter (sameKey l h))).map (fun o => o.isSome)

/-- Authoritative commit of an insert under the unique constraint.  `db` is
the store at commit time; `fault` injects a transient store error.  Returns
the new store and whether the commit succeeded; on a constraint rejection or
a transient error the transaction rolls back and the store is unchanged. -/
def dbTryInsert (db : List InsightRow) (row : InsightRow) (fault : Bool) :
    List InsightRow × Bool :=
  if fault then (db, false)
  else if db.any (sameKey row.lead_id row.content_hash) then (db, false)
  else (db ++ [row], true)

/-- `InsightService.create_insight`: pre-check against a (possibly stale)
read snapshot `snap`, then attempt the insert against the authoritative
store `db`; any exception during commit is caught and mapped to `False`
after rollback.  An exception from the pre-check itself propagates. -/
def create_insight (snap db : List InsightRow) (row : InsightRow)
    (fault : Bool) : Except Unit (List InsightRow × Bool) := do
  let exists0 ← insight_exists snap row.lead_id row.content_hash
  if exists0 then
    .ok (db, false)
  else
    .ok (dbTryInsert db row fault)

/-- `MessageProcessor.process_message` as a transition on the insight store.
`snap1` and `snap2` are the (possibly stale) store snapshots seen by the
processor's duplicate pre-check and by `create_insight`'s pre-check; `db` is
the authoritative store at commit time; `llm` is the classifier outcome
(`none` models a classifier exception); `commitFault` injects a transient
store error during the insert.  Returns the resulting store and the
success flag the worker acks on. -/
def process_message (snap1 snap2 db : List InsightRow) (w : WireEvent)
    (llm : Option LLMResponse) (commitFault : Bool) :
    List InsightRow × Bool :=
  match parseLeadEvent w with
  | none => (db, false)
  | some event =>
    match insight_exists snap1 event.lead_id event.content_hash with
    | .error _ => (db, false)
    | .ok true => (db, true)
    | .ok false =>
      match llm with
      | none => (db, false)
      | some resp =>
        let row : InsightRow := ⟨event.lead_id, event.content_hash,
          resp.intent, resp.priority, resp.next_action, resp.confidence,
          resp.tags⟩
        match create_insight snap2 db row commitFault with
        | .error _ => (db, false)
        | .ok (db2, created) =>
          if created then (db2, true)
          else (db2, true)

/-- One worker operation: a message together with the environment it ran in
(read snapshots, classifier outcome, injected commit fault). -/
structure WorkerStep where
  snap1 : List InsightRow
  snap2 : List InsightRow
  msg : WireEvent
  llm : Option LLMResponse
  commitFault : Bool

/-- Effect of one worker operation on the shared insight store. -/
def stepDb (db : List InsightRow) (s : WorkerStep) : List InsightRow :=
  (process_message s.snap1 s.snap2 db s.msg s.llm s.commitFault).1

/-- Effect of a whole history of worker operations, in commit order. -/
def runHistory (db : List InsightRow) (steps : List WorkerStep) :
    List InsightRow :=
  steps.foldl stepDb db

/-! Worker main loop: acknowledgement of processed batches
(`triage_worker/main.py`). -/

/-- `ack_successful_messages`: the loop
`for i, message_id in enumerate(msg_ids): if results[i]: xack(...)`.
The caller always passes `results` gathered over exactly `msg_ids`, so the
enumeration is the positional pairing of the two lists; the value is the
list of entry ids passed to `xack`. -/
def ack_successful_messages (msg_ids : List String) (results : List Bool) :
    List String :=
  ((msg_ids.zip results).filter (fun p => p.2)).map (fun p => p.1)

/-- Consumer-group pending-entries state after the `xack` calls: each acked
id is removed, every other pending entry stays. -/
def applyAcks (pending acked : List String) : List String :=
  pending.filter (fun e => !(acked.contains e))

/-! Intake API (`intake_api/dependencies.py`, `intake_api/lead_routes.py`). -/

/-- Normalized `POST /leads` body (`LeadCreate.dict()`): the five payload
fields in fixed order. -/
structure LeadPayload where
  email : Option String
  phone : Option String
  name : Option String
  note : String
  source : Option String
  deriving DecidableEq

/-- Row of the `leads` table (`common/models.py`, `Lead`). -/
structure LeadRow where
  id : Nat
  email : Option String
  phone : Option String
  name : Option String
  note : String
  source : Option String
  created_at : DateTimeV
  deriving DecidableEq

/-- Construction of the new lead row in `create_lead`
(`Lead(**lead_data.dict())` with server-generated id and timestamp). -/
def mkLeadRow (id : Nat) (p : LeadPayload) (now : DateTimeV) : LeadRow :=
  ⟨id, p.email, p.phone, p.name, p.note, p.source, now⟩

/-- Lead representation returned to clients and cached as `response_data`
(`LeadResponse.model_dump(mode="json")`); its JSON rendering is
deterministic, so equality of these records is byte-identity of bodies. -/
structure LeadRepr where
  email : Option String
  phone : Option String
  name : Option String
  note : String
  source : Option String
  id : Nat
  created_at : DateTimeV
  deriving DecidableEq

/-- `LeadResponse` serialization of a lead row. -/
def leadRepr (l : LeadRow) : LeadRepr :=
  ⟨l.email, l.phone, l.name, l.note, l.source, l.id, l.created_at⟩

/-- Cached idempotency record (`cache_payload` in `create_lead`). -/
structure CachePayload where
  status_code : Nat
  response_data : LeadRepr
  request_data : LeadPayload
  deriving DecidableEq

/-- State touched by the intake service: the idempotency key-value cache,
the `leads` table, and the event stream.  TTL expiry is not modelled. -/
structure IntakeState where
  cache : List (String × CachePayload)
  leads : List LeadRow
  stream : List WireEvent
  deriving DecidableEq

/-- Redis `GET` on the cache. -/
def kvGet (cache : List (String × CachePayload)) (k : String) :
    Option CachePayload :=
  (cache.find? (fun p => p.1 == k)).map (fun p => p.2)

/-- Redis `SETEX` on the cache (overwrite; TTL not modelled). -/
def kvSet (cache : List (String × CachePayload)) (k : String)
    (v : CachePayload) : List (String × CachePayload) :=
  (k, v) :: cache.filter (fun p => !(p.1 == k))

/-- The cache key `idempotency:<token>`. -/
def redisKey (key : Nat) : String :=
  "idempotency:" ++ uuidStr key

/-- Outcome of fetching and JSON-decoding the cached idempotency record:
the read raised, the key was absent, the value failed to decode, or a
record was obtained. -/
inductive FetchResult
  | fetchErr
  | fetchMissing
  | fetchCorrupt
  | fetchValue (p : CachePayload)
  deriving DecidableEq

/-- Result of `verify_idempotency_key`: `(False, None)`, `(True, cached)`,
or the 409 `HTTPException`. -/
inductive VerifyResult
  | fresh
  | dup (cached : CachePayload)
  | conflict
  deriving DecidableEq

/-- `verify_idempotency_key` (`intake_api/dependencies.py`): a read error or
a corrupt cached value is swallowed by the `except Exception` handler and
reported as `(False, None)`; an absent key is `(False, None)`; a present
record with different `request_data` raises 409; otherwise `(True, cached)`.
The route always passes the current normalized payload. -/
def verify_idempotency_key (fetch : FetchResult)
    (current_request_data : LeadPayload) : VerifyResult :=
  match fetch with
  | .fetchErr => .fresh
  | .fetchMissing => .fresh
  | .fetchCorrupt => .fresh
  | .fetchValue p =>
    if p.request_data ≠ current_request_data then .conflict else .dup p

/-- Fault injected into the idempotency lookup: the key-value read raises,
or the cached value fails JSON decoding. -/
inductive LookupFault
  | readError
  | corruptValue
  deriving DecidableEq

/-- HTTP response body: a lead JSON document or an error detail. -/
inductive RespBody
  | leadJson (r : LeadRepr)
  | httpError (detail : String)
  deriving DecidableEq

/-- HTTP response: status code and body. -/
structure HttpResponse where
  status : Nat
  body : RespBody
  deriving DecidableEq

/-- `create_lead` (`intake_api/lead_routes.py`) as a state transition.
Server-chosen values are parameters: `newId`/`now` for the lead row,
`eventId`/`eventTime` for the published event, `sha256hex` for the note
fingerprint.  `lookupFault` injects a failure into the idempotency lookup;
`dbFault`, `setexFault` and `xaddFault` inject failures into the lead
commit, the cache write and the stream publish (each mapped to 500 by the
route's exception handler; the rollback after a failed cache write or
publish is a no-op because the lead is already committed). -/
def create_lead (st : IntakeState) (key : Nat) (payload : LeadPayload)
    (newId : Nat) (now : DateTimeV) (eventId : Nat) (eventTime : DateTimeV)
    (sha256hex : String → String) (lookupFault : Option LookupFault)
    (dbFault setexFault xaddFault : Bool) : IntakeState × HttpResponse :=
  let fetch : FetchResult :=
    match lookupFault with
    | some .readError => .fetchErr
    | some .corruptValue => .fetchCorrupt
    | none =>
      match kvGet st.cache (redisKey key) with
      | none => .fetchMissing
      | some p => .fetchValue p
  match verify_idempotency_key fetch payload with
  | .conflict =>
    (st, ⟨409, .httpError "Idempotency-Key already used with different data"⟩)
  | .dup cached => (st, ⟨200, .leadJson cached.response_data⟩)
  | .fresh =>
    if dbFault then (st, ⟨500, .httpError "Error creating lead"⟩)
    else
      let lead := mkLeadRow newId payload now
      let st1 := { st with leads := st.leads ++ [lead] }
      if setexFault then (st1, ⟨500, .httpError "Error creating lead"⟩)
      else
        let cp : CachePayload := ⟨201, leadRepr lead, payload⟩
        let st2 := { st1 with cache := kvSet st1.cache (redisKey key) cp }
        if xaddFault then (st2, ⟨500, .httpError "Error creating lead"⟩)
        else
          let ev : WireEvent := ⟨uuidStr eventId, "lead.created",
            uuidStr lead.id, lead.note, sha256hex lead.note, isoStr eventTime⟩
          let st3 := { st2 with stream := st2.stream ++ [ev] }
          (st3, ⟨201, .leadJson (leadRepr lead)⟩)

/-! Insights API (`insights_api/insights_routes.py`). -/

/-- Outcome of `GET /leads/{id}/insight`: 200 with a row, 404, or an
unhandled error (500). -/
inductive InsightGet
  | found (row : InsightRow)
  | notFound
  | serverError
  deriving DecidableEq

/-- `get_insight_by_lead_id`: select all insights for the lead, then
`scalar_one_or_none`; `None` raises the 404 `HTTPException`, several rows
raise `MultipleResultsFound`, which no handler catches (500). -/
def get_insight_by_lead_id (db : List InsightRow) (lead_id : Nat) :
    InsightGet :=
  match scalarOneOrNone (db.filter (fun r => r.lead_id == lead_id)) with
  | .error _ => .serverError
  | .ok none => .notFound
  | .ok (some r) => .found r

/-! Theorems. -/

lemma keyCount_append (d1 d2 : List InsightRow) (l : Nat) (h : String) :
    keyCount (d1 ++ d2) l h = keyCount d1 l h + keyCount d2 l h := by
  simp [keyCount, List.filter_append]

lemma keyCount_eq_zero_of_any_eq_false {db : List InsightRow} {l : Nat}
    {h : String} (ha : db.any (sameKey l h) = false) : keyCount db l h = 0 := by
  simp only [List.any_eq_false] at ha
  simp [keyCount, List.filter_eq_nil_iff.mpr ha]

lemma keyCount_singleton_le_one (row : InsightRow) (l : Nat) (h : String) :
    keyCount [row] l h ≤ 1 := by
  by_cases hk : sameKey l h row = true <;> simp [keyCount, List.filter, hk]

lemma sameKey_eq_of_true {l : Nat} {h : String} {row : InsightRow}
    (hk : sameKey l h row = true) : row.lead_id = l ∧ row.content_hash = h := by
  simp only [sameKey, Bool.and_eq_true, beq_iff_eq] at hk
  exact hk

lemma process_message_db_cases (snap1 snap2 db : List InsightRow)
    (w : WireEvent) (llm : Option LLMResponse) (fault : Bool) :
    (process_message snap1 snap2 db w llm fault).1 = db ∨
    ∃ row : InsightRow,
      db.any (sameKey row.lead_id row.content_hash) = false ∧
      (process_message snap1 snap2 db w llm fault).1 = db ++ [row] := by
  unfold process_message create_insight dbTryInsert
  cases hp : parseLeadEvent w with
  | none => exact Or.inl rfl
  | some event =>
    dsimp only
    cases hex1 : insight_exists snap1 event.lead_id event.content_hash with
    | error e => exact Or.inl rfl
    | ok b1 =>
      cases b1 with
      | true => exact Or.inl rfl
      | false =>
        cases llm with
        | none => exact Or.inl rfl
        | some resp =>
          dsimp only
          cases hex2 : insight_exists snap2 event.lead_id event.content_hash with
          | error e => exact Or.inl rfl
          | ok b2 =>
            cases b2 with
            | true => exact Or.inl rfl
            | false =>
              cases fault with
              | true => exact Or.inl rfl
              | false =>
                cases hany : db.any (sameKey event.lead_id event.content_hash) with
                | true => exact Or.inl rfl
                | false =>
                  refine Or.inr ⟨⟨event.lead_id, event.content_hash, resp.intent,
                    resp.priority, resp.next_action, resp.confidence, resp.tags⟩,
                    hany, ?_⟩
                  simp [hany]
                  rfl

lemma stepDb_preserves (db : List InsightRow) (s : WorkerStep)
    (hdb : UniquePerKey db) : UniquePerKey (stepDb db s) := by
  rcases process_message_db_cases s.snap1 s.snap2 db s.msg s.llm s.commitFault
    with hcase | ⟨row, hany, hcase⟩
  · unfold stepDb
    rw [hcase]; exact hdb
  · unfold stepDb
    rw [hcase]
    intro l h
    rw [keyCount_append]
    by_cases hk : sameKey l h row = true
    · obtain ⟨h1, h2⟩ := sameKey_eq_of_true hk
      have h0 : keyCount db l h = 0 := by
        apply keyCount_eq_zero_of_any_eq_false
        rw [← h1, ← h2]; exact hany
      rw [h0]
      simpa using keyCount_singleton_le_one row l h
    · have h0 : keyCount [row] l h = 0 := by
        simp [keyCount, List.filter, hk]
      rw [h0]
      simpa using hdb l h

lemma runHistory_preserves (steps : List WorkerStep) (db : List InsightRow)
    (hdb : UniquePerKey db) : UniquePerKey (runHistory db steps) := by
  induction steps generalizing db with
  | nil => exact hdb
  | cons s rest ih =>
    have : runHistory db (s :: rest) = runHistory (stepDb db s) rest := rfl
    rw [this]
    exact ih _ (stepDb_preserves db s hdb)

/-- C1: for every history of worker operations over arbitrary messages,
snapshots, classifier outcomes and faults, starting from any store
satisfying the unique constraint, the resulting insight store holds at
most one row per `(lead_id, content_hash)`, and every single worker
operation preserves this invariant (the constraint check at commit time
in `dbTryInsert` is the arbiter). -/
theorem C1_unique_insight_invariant (db : List InsightRow)
    (steps : List WorkerStep) (hdb : UniquePerKey db) :
    (∀ l h, keyCount (runHistory db steps) l h ≤ 1) ∧
    (∀ d s, UniquePerKey d → UniquePerKey (stepDb d s)) :=
  ⟨runHistory_preserves steps db hdb, fun d s hd => stepDb_preserves d s hd⟩

/-- C1 witness: a concrete two-step history (the same event delivered
twice) leaves at most one row for its key. -/
theorem C1_witness :
    keyCount
      (runHistory []
        [⟨[], [], ⟨"00000000-0000-0000-0000-000000000001", "lead.created",
            "00000000-0000-0000-0000-000000000002", "note text", "abc123",
            "2024-05-17T10:30:00"⟩, some ⟨.other, .P2, .qualify, 3/10, some []⟩,
            false⟩,
         ⟨[], [], ⟨"00000000-0000-0000-0000-000000000003", "lead.created",
            "00000000-0000-0000-0000-000000000002", "note text", "abc123",
            "2024-05-17T10:31:00"⟩, some ⟨.other, .P2, .qualify, 3/10, some []⟩,
            false⟩])
      2 "abc123" ≤ 1 :=
  (C1_unique_insight_invariant [] _ (fun l h => by simp [keyCount])).1 2 "abc123"

/-- C2 (code bug): a transient store error during the insert (injected via
the commit fault on a fresh, valid, non-duplicate event with a successful
classification) still makes `process_message` return `True`: the entry is
acknowledged although no insight row was written.  The spec requires store
errors other than the unique-constraint rejection to yield failure. -/
theorem C2_insert_error_still_acked :
    process_message [] [] []
      ⟨"00000000-0000-0000-0000-000000000001", "lead.created",
       "00000000-0000-0000-0000-000000000002", "note text", "abc123",
       "2024-05-17T10:30:00"⟩
      (some ⟨.other, .P2, .qualify, 3/10, some []⟩) true = ([], true) := by
  decide

lemma zip_snd_unique {l1 : List String} {l2 : List Bool} (hn : l1.Nodup)
    {a : String} {b1 b2 : Bool} (h1 : (a, b1) ∈ l1.zip l2)
    (h2 : (a, b2) ∈ l1.zip l2) : b1 = b2 := by
  induction l1 generalizing l2 with
  | nil => simp at h1
  | cons x xs ih =>
    cases l2 with
    | nil => simp at h1
    | cons y ys =>
      rw [List.nodup_cons] at hn
      simp only [List.zip_cons_cons, List.mem_cons, Prod.mk.injEq] at h1 h2
      rcases h1 with ⟨rfl, rfl⟩ | h1
      · rcases h2 with ⟨-, rfl⟩ | h2
        · rfl
        · exact absurd (List.of_mem_zip h2).1 hn.1
      · rcases h2 with ⟨rfl, rfl⟩ | h2
        · exact absurd (List.of_mem_zip h1).1 hn.1
        · exact ih hn.2 h1 h2

/-- C5: in a batch, an entry id is acked by `ack_successful_messages`
exactly when its processing result is `True`, and an entry whose result is
`False` is never acked and stays in the pending-entries list. -/
theorem C5_ack_only_successful (msg_ids : List String) (results : List Bool)
    (pending : List String) (hn : msg_ids.Nodup) (id : String) (r : Bool)
    (hmem : (id, r) ∈ msg_ids.zip results) :
    (id ∈ ack_successful_messages msg_ids results ↔ r = true) ∧
    (r = false → id ∈ pending →
      id ∈ applyAcks pending (ack_successful_messages msg_ids results)) := by
  have hiff : id ∈ ack_successful_messages msg_ids results ↔ r = true := by
    unfold ack_successful_messages
    simp only [List.mem_map, List.mem_filter, Prod.exists]
    constructor
    · rintro ⟨a, b, ⟨hz, hb⟩, rfl⟩
      rw [← zip_snd_unique hn hz hmem]
      exact hb
    · intro hr
      subst hr
      exact ⟨id, true, ⟨hmem, rfl⟩, rfl⟩
  refine ⟨hiff, fun hrf hp => ?_⟩
  have hno : id ∉ ack_successful_messages msg_ids results := by
    intro hin
    rw [hiff] at hin
    simp [hrf] at hin
  unfold applyAcks
  rw [List.mem_filter]
  refine ⟨hp, ?_⟩
  simpa [List.contains] using hno

/-- C5 witness: the batch `["1-1", "2-2"]` with results `[true, false]`
acks only `"1-1"`; `"2-2"` stays pending. -/
theorem C5_witness :
    (["1-1", "2-2"] : List String).Nodup ∧
    ("2-2", false) ∈ (["1-1", "2-2"] : List String).zip [true, false] ∧
    (("2-2" ∈ ack_successful_messages ["1-1", "2-2"] [true, false] ↔
        false = true) ∧
     (false = false → "2-2" ∈ (["1-1", "2-2"] : List String) →
        "2-2" ∈ applyAcks ["1-1", "2-2"]
          (ack_successful_messages ["1-1", "2-2"] [true, false]))) :=
  ⟨by decide, by decide,
   C5_ack_only_successful ["1-1", "2-2"] [true, false] ["1-1", "2-2"]
     (by decide) "2-2" false (by decide)⟩

/-- C6 counterexample: a store holding two insights for lead 7 (with two
different content hashes, which the unique constraint permits) has at
least one insight row for that lead, yet `GET /leads/7/insight` does not
answer 200: `scalar_one_or_none` raises `MultipleResultsFound`, which no
handler catches. -/
theorem C6_counterexample :
    (([⟨7, "h1", .buy, .P1, .email, 1/2, none⟩,
       ⟨7, "h2", .other, .P2, .qualify, 3/10, none⟩] : List InsightRow).any
        (fun r => r.lead_id == 7) = true) ∧
    get_insight_by_lead_id
      [⟨7, "h1", .buy, .P1, .email, 1/2, none⟩,
       ⟨7, "h2", .other, .P2, .qualify, 3/10, none⟩] 7 = .serverError := by
  exact ⟨rfl, rfl⟩

/-- C6 (amended): if exactly one insight row with the requested lead id
exists, the response is 200 with that insight; if none exists, the
response is 404.  (With two or more such rows the endpoint raises an
unhandled `MultipleResultsFound` instead of answering 200.) -/
theorem C6_get_insight_amended (db : List InsightRow) (lid : Nat) :
    (∀ r, db.filter (fun x => x.lead_id == lid) = [r] →
      get_insight_by_lead_id db lid = .found r) ∧
    (db.filter (fun x => x.lead_id == lid) = [] →
      get_insight_by_lead_id db lid = .notFound) := by
  constructor
  · intro r hr
    unfold get_insight_by_lead_id
    rw [hr]
    rfl
  · intro hr
    unfold get_insight_by_lead_id
    rw [hr]
    rfl

/-- C6 witness: a store with exactly one insight for lead 7 answers 200
with that insight. -/
theorem C6_witness :
    get_insight_by_lead_id [⟨7, "h1", .buy, .P1, .email, 1/2, none⟩] 7 =
      .found ⟨7, "h1", .buy, .P1, .email, 1/2, none⟩ :=
  (C6_get_insight_amended [⟨7, "h1", .buy, .P1, .email, 1/2, none⟩] 7).1
    ⟨7, "h1", .buy, .P1, .email, 1/2, none⟩ (by rfl)

lemma kvGet_kvSet_same (c : List (String × CachePayload)) (k : String)
    (v : CachePayload) : kvGet (kvSet c k v) k = some v := by
  simp [kvGet, kvSet, List.find?_cons_of_pos]

lemma create_lead_fresh (st : IntakeState) (key : Nat) (payload : LeadPayload)
    (newId : Nat) (now : DateTimeV) (eventId : Nat) (eventTime : DateTimeV)
    (hashF : String → String)
    (hfresh : kvGet st.cache (redisKey key) = none) :
    create_lead st key payload newId now eventId eventTime hashF
        none false false false =
      (⟨kvSet st.cache (redisKey key)
          ⟨201, leadRepr (mkLeadRow newId payload now), payload⟩,
        st.leads ++ [mkLeadRow newId payload now],
        st.stream ++ [⟨uuidStr eventId, "lead.created", uuidStr newId,
          payload.note, hashF payload.note, isoStr eventTime⟩]⟩,
       ⟨201, .leadJson (leadRepr (mkLeadRow newId payload now))⟩) := by
  unfold create_lead
  rw [hfresh]
  rfl

/-- C3: for a pair of `POST /leads` requests with the same idempotency key
and the same normalized body, where the first ran against a state with no
cached record and succeeded with 201, the second request answers 200, its
body is exactly the `response_data` the first request cached (the first
request's own 201 body), and it leaves the whole state — in particular the
lead store — unchanged. -/
theorem C3_idempotent_replay (st0 : IntakeState) (key : Nat)
    (payload : LeadPayload) (id1 : Nat) (now1 : DateTimeV) (ev1 : Nat)
    (evt1 : DateTimeV) (id2 : Nat) (now2 : DateTimeV) (ev2 : Nat)
    (evt2 : DateTimeV) (hashF : String → String)
    (hfresh : kvGet st0.cache (redisKey key) = none) :
    (create_lead st0 key payload id1 now1 ev1 evt1 hashF
        none false false false).2 =
      ⟨201, .leadJson (leadRepr (mkLeadRow id1 payload now1))⟩ ∧
    kvGet (create_lead st0 key payload id1 now1 ev1 evt1 hashF
        none false false false).1.cache (redisKey key) =
      some ⟨201, leadRepr (mkLeadRow id1 payload now1), payload⟩ ∧
    create_lead (create_lead st0 key payload id1 now1 ev1 evt1 hashF
        none false false false).1 key payload id2 now2 ev2 evt2 hashF
        none false false false =
      ((create_lead st0 key payload id1 now1 ev1 evt1 hashF
          none false false false).1,
       ⟨200, .leadJson (leadRepr (mkLeadRow id1 payload now1))⟩) := by
  have h1 := create_lead_fresh st0 key payload id1 now1 ev1 evt1 hashF hfresh
  refine ⟨by rw [h1], by rw [h1]; exact kvGet_kvSet_same _ _ _, ?_⟩
  rw [h1]
  unfold create_lead
  rw [kvGet_kvSet_same]
  simp [verify_idempotency_key]

/-- C3 witness: a concrete first request against the empty state followed
by a replay with the same key and body. -/
theorem C3_witness :
    create_lead (create_lead ⟨[], [], []⟩ 5 ⟨none, none, none, "hello", none⟩
        11 ⟨2024, 1, 2, 3, 4, 5, 0⟩ 21 ⟨2024, 1, 2, 3, 4, 6, 0⟩
        (fun _ => "hh") none false false false).1
      5 ⟨none, none, none, "hello", none⟩ 12 ⟨2024, 1, 2, 3, 5, 5, 0⟩ 22
      ⟨2024, 1, 2, 3, 5, 6, 0⟩ (fun _ => "hh") none false false false =
    ((create_lead ⟨[], [], []⟩ 5 ⟨none, none, none, "hello", none⟩
        11 ⟨2024, 1, 2, 3, 4, 5, 0⟩ 21 ⟨2024, 1, 2, 3, 4, 6, 0⟩
        (fun _ => "hh") none false false false).1,
     ⟨200, .leadJson (leadRepr (mkLeadRow 11 ⟨none, none, none, "hello", none⟩
        ⟨2024, 1, 2, 3, 4, 5, 0⟩))⟩) :=
  (C3_idempotent_replay ⟨[], [], []⟩ 5 ⟨none, none, none, "hello", none⟩
    11 ⟨2024, 1, 2, 3, 4, 5, 0⟩ 21 ⟨2024, 1, 2, 3, 4, 6, 0⟩
    12 ⟨2024, 1, 2, 3, 5, 5, 0⟩ 22 ⟨2024, 1, 2, 3, 5, 6, 0⟩
    (fun _ => "hh") (by rfl)).2.2

/-- C4: a `POST /leads` request whose idempotency key has a cached record
with `request_data` different from the incoming normalized payload answers
409 and leaves the state untouched: no lead row is inserted and no
`lead.created` event is published, whatever the later-step fault
parameters would have done. -/
theorem C4_conflict_409 (st : IntakeState) (key : Nat)
    (payload : LeadPayload) (p : CachePayload) (newId : Nat)
    (now : DateTimeV) (eventId : Nat) (eventTime : DateTimeV)
    (hashF : String → String) (dbF setexF xaddF : Bool)
    (hget : kvGet st.cache (redisKey key) = some p)
    (hne : p.request_data ≠ payload) :
    create_lead st key payload newId now eventId eventTime hashF
        none dbF setexF xaddF =
      (st, ⟨409, .httpError "Idempotency-Key already used with different data"⟩) := by
  unfold create_lead
  rw [hget]
  dsimp only [verify_idempotency_key]
  rw [if_pos hne]

/-- C4 witness: a cached record for key 5 with note `"hello"`, hit with a
request carrying note `"bye"` under the same key. -/
theorem C4_witness :
    create_lead
      ⟨[(redisKey 5, ⟨201,
          leadRepr (mkLeadRow 11 ⟨none, none, none, "hello", none⟩
            ⟨2024, 1, 2, 3, 4, 5, 0⟩),
          ⟨none, none, none, "hello", none⟩⟩)],
        [mkLeadRow 11 ⟨none, none, none, "hello", none⟩
          ⟨2024, 1, 2, 3, 4, 5, 0⟩], []⟩
      5 ⟨none, none, none, "bye", none⟩ 12 ⟨2024, 1, 2, 3, 5, 5, 0⟩ 22
      ⟨2024, 1, 2, 3, 5, 6, 0⟩ (fun _ => "hh") none false false false =
    (⟨[(redisKey 5, ⟨201,
          leadRepr (mkLeadRow 11 ⟨none, none, none, "hello", none⟩
            ⟨2024, 1, 2, 3, 4, 5, 0⟩),
          ⟨none, none, none, "hello", none⟩⟩)],
        [mkLeadRow 11 ⟨none, none, none, "hello", none⟩
          ⟨2024, 1, 2, 3, 4, 5, 0⟩], []⟩,
     ⟨409, .httpError "Idempotency-Key already used with different data"⟩) :=
  C4_conflict_409 _ 5 ⟨none, none, none, "bye", none⟩
    ⟨201, leadRepr (mkLeadRow 11 ⟨none, none, none, "hello", none⟩
        ⟨2024, 1, 2, 3, 4, 5, 0⟩), ⟨none, none, none, "hello", none⟩⟩
    12 ⟨2024, 1, 2, 3, 5, 5, 0⟩ 22 ⟨2024, 1, 2, 3, 5, 6, 0⟩ (fun _ => "hh")
    false false false (by rfl) (by decide)

/-- C10: if the idempotency lookup fails — the key-value read raises or the
cached value fails JSON decoding — `verify_idempotency_key` reports
`(False, None)` and the request proceeds as a fresh creation: with the
remaining steps healthy it answers 201 with the new lead's representation
(not a cached response and not a 500), and a new lead row is appended to
the lead store. -/
theorem C10_lookup_failure_fresh (st : IntakeState) (key : Nat)
    (payload : LeadPayload) (newId : Nat) (now : DateTimeV) (eventId : Nat)
    (eventTime : DateTimeV) (hashF : String → String) (f : LookupFault) :
    verify_idempotency_key
        (match f with
         | .readError => .fetchErr
         | .corruptValue => .fetchCorrupt) payload = .fresh ∧
    (create_lead st key payload newId now eventId eventTime hashF
        (some f) false false false).2.status = 201 ∧
    (create_lead st key payload newId now eventId eventTime hashF
        (some f) false false false).2.body =
      .leadJson (leadRepr (mkLeadRow newId payload now)) ∧
    (create_lead st key payload newId now eventId eventTime hashF
        (some f) false false false).1.leads =
      st.leads ++ [mkLeadRow newId payload now] := by
  cases f <;> exact ⟨rfl, rfl, rfl, rfl⟩

lemma anyKwIn_nil (nl : String) : anyKwIn nl [] = false := rfl

lemma detect_priority_eq (nl intent : String) :
    detect_priority nl intent =
      (if anyKwIn nl ["срочно", "urgent", "asap", "немедленно", "критично"]
        then "P0"
      else if anyKwIn nl ["скоро", "soon", "ближайшее время", "недолго"]
        then "P1"
      else if anyKwIn nl ["когда-нибудь", "потом", "не спеша"] then "P3"
      else
        match alistGet intent_rules intent with
        | some r => r.2
        | none => "P2") := by
  cases h0 : anyKwIn nl ["срочно", "urgent", "asap", "немедленно", "критично"] <;>
    cases h1 : anyKwIn nl ["скоро", "soon", "ближайшее время", "недолго"] <;>
    cases h3 : anyKwIn nl ["когда-нибудь", "потом", "не спеша"] <;>
    simp [detect_priority, priority_rules, List.find?, h0, h1, h3, anyKwIn_nil]

lemma detect_intent_cases (nl : String) :
    detect_intent nl = "buy" ∨ detect_intent nl = "support" ∨
    detect_intent nl = "job" ∨ detect_intent nl = "spam" ∨
    detect_intent nl = "other" := by
  unfold detect_intent
  cases h : intent_rules.find? (fun r => anyKwIn nl r.2.1) with
  | none => simp
  | some r =>
    have hm := List.mem_of_find?_eq_some h
    fin_cases hm <;> simp

lemma triage_inversion (note : String) (r : LLMResponse)
    (h : triage note = some r) :
    (∃ i, IntentEnum.ofValue (detect_intent (pyLower note)) = some i ∧
      r.intent = i) ∧
    (∃ p, PriorityEnum.ofValue (detect_priority (pyLower note)
        (detect_intent (pyLower note))) = some p ∧ r.priority = p) ∧
    r.confidence = calculate_confidence (pyLower note)
      (detect_intent (pyLower note)) := by
  simp only [triage, mkLLMResponse, bind, Option.bind_eq_some] at h
  obtain ⟨i, hi, p, hp, a, ha, hif⟩ := h
  split at hif
  · rw [Option.some.injEq] at hif
    subst hif
    exact ⟨⟨i, hi, rfl⟩, ⟨p, hp, rfl⟩, rfl⟩
  · simp at hif

theorem C8_priority_decision (note : String) (r : LLMResponse)
    (h : triage note = some r) :
    r.priority =
      (if anyKwIn (pyLower note) ["срочно", "urgent", "asap", "немедленно",
          "критично"] then PriorityEnum.P0
      else if anyKwIn (pyLower note) ["скоро", "soon", "ближайшее время",
          "недолго"] then PriorityEnum.P1
      else if anyKwIn (pyLower note) ["когда-нибудь", "потом", "не спеша"]
          then PriorityEnum.P3
      else
        match detect_intent (pyLower note) with
        | "buy" => PriorityEnum.P1
        | "support" => PriorityEnum.P2
        | "job" => PriorityEnum.P3
        | "spam" => PriorityEnum.P3
        | _ => PriorityEnum.P2) := by
  obtain ⟨-, ⟨p, hp, hrp⟩, -⟩ := triage_inversion note r h
  rw [hrp]
  rw [detect_priority_eq] at hp
  rcases detect_intent_cases (pyLower note) with hI | hI | hI | hI | hI <;>
    rw [hI] at hp ⊢ <;>
    cases hb0 : anyKwIn (pyLower note) ["срочно", "urgent", "asap",
      "немедленно", "критично"] <;>
    cases hb1 : anyKwIn (pyLower note) ["скоро", "soon", "ближайшее время",
      "недолго"] <;>
    cases hb3 : anyKwIn (pyLower note) ["когда-нибудь", "потом", "не спеша"] <;>
    simp_all [PriorityEnum.ofValue, alistGet, intent_rules, List.find?]

theorem C9_confidence_formula (note : String) (r : LLMResponse)
    (h : triage note = some r) :
    r.confidence =
      (if detect_intent (pyLower note) = "other" then 3/10
       else
         min (9/10)
           (3/10 + (2/10) *
             (((match alistGet intent_rules (detect_intent (pyLower note)) with
                | some rule => rule.1
                | none => ([] : List String)).filter
                  (fun k => containsKw (pyLower note) k)).length : ℚ))) := by
  obtain ⟨-, -, hc⟩ := triage_inversion note r h
  rw [hc]
  simp only [calculate_confidence]
  by_cases hI : detect_intent (pyLower note) = "other"
  · simp [hI]
  · simp only [hI, if_false]
    rw [min_comm, mul_comm]

lemma calculate_confidence_bounds (nl intent : String) :
    0 ≤ calculate_confidence nl intent ∧ calculate_confidence nl intent ≤ 1 := by
  unfold calculate_confidence
  by_cases hI : intent = "other"
  · simp [hI]
    norm_num
  · simp only [hI, if_false]
    refine ⟨le_min (by positivity) (by norm_num), ?_⟩
    exact le_trans (min_le_right _ _) (by norm_num)

lemma triage_eval (note : String) (i : IntentEnum) (p : PriorityEnum)
    (a : NextActionEnum)
    (hi : IntentEnum.ofValue (detect_intent (pyLower note)) = some i)
    (hp : PriorityEnum.ofValue (detect_priority (pyLower note)
      (detect_intent (pyLower note))) = some p)
    (ha : NextActionEnum.ofValue (get_next_action (detect_intent (pyLower note))
      (detect_priority (pyLower note) (detect_intent (pyLower note)))) = some a) :
    triage note = some ⟨i, p, a,
      calculate_confidence (pyLower note) (detect_intent (pyLower note)),
      some (generate_tags (pyLower note))⟩ := by
  simp only [triage, mkLLMResponse, bind, hi, hp, ha, Option.some_bind]
  rw [if_pos (calculate_confidence_bounds (pyLower note)
    (detect_intent (pyLower note)))]

theorem C8_witness :
    (⟨IntentEnum.other, PriorityEnum.P0, NextActionEnum.qualify,
      calculate_confidence (pyLower "hello asap")
        (detect_intent (pyLower "hello asap")),
      some (generate_tags (pyLower "hello asap"))⟩ : LLMResponse).priority =
      (if anyKwIn (pyLower "hello asap") ["срочно", "urgent", "asap",
          "немедленно", "критично"] then PriorityEnum.P0
      else if anyKwIn (pyLower "hello asap") ["скоро", "soon",
          "ближайшее время", "недолго"] then PriorityEnum.P1
      else if anyKwIn (pyLower "hello asap") ["когда-нибудь", "потом",
          "не спеша"] then PriorityEnum.P3
      else
        match detect_intent (pyLower "hello asap") with
        | "buy" => PriorityEnum.P1
        | "support" => PriorityEnum.P2
        | "job" => PriorityEnum.P3
        | "spam" => PriorityEnum.P3
        | _ => PriorityEnum.P2) :=
  C8_priority_decision "hello asap" _
    (triage_eval "hello asap" .other .P0 .qualify (by decide) (by decide)
      (by decide))

theorem C9_witness :
    (⟨IntentEnum.other, PriorityEnum.P2, NextActionEnum.qualify,
      calculate_confidence (pyLower "hi there")
        (detect_intent (pyLower "hi there")),
      some (generate_tags (pyLower "hi there"))⟩ : LLMResponse).confidence =
      (if detect_intent (pyLower "hi there") = "other" then 3/10
       else
         min (9/10)
           (3/10 + (2/10) *
             (((match alistGet intent_rules (detect_intent (pyLower "hi there")) with
                | some rule => rule.1
                | none => ([] : List String)).filter
                  (fun k => containsKw (pyLower "hi there") k)).length : ℚ))) :=
  C9_confidence_formula "hi there" _
    (triage_eval "hi there" .other .P2 .qualify (by decide) (by decide)
      (by decide))

lemma digitVal_digitChar {d : Nat} (h : d < 16) :
    digitVal (digitChar d) = some d := by
  interval_cases d <;> rfl

lemma digitChar_ne_dash {d : Nat} (h : d < 16) : digitChar d ≠ '-' := by
  interval_cases d <;> decide

lemma renderNat_length (b n w : Nat) : (renderNat b n w).length = w := by
  induction w generalizing n with
  | zero => rfl
  | succ w ih => simp [renderNat, ih]

lemma mem_renderNat_ne_dash {b : Nat} (hb0 : 0 < b) (hb16 : b ≤ 16)
    (n w : Nat) : ∀ c ∈ renderNat b n w, c ≠ '-' := by
  induction w generalizing n with
  | zero => intro c hc; simp [renderNat] at hc
  | succ w ih =>
    intro c hc
    rw [renderNat] at hc
    rcases List.mem_append.mp hc with hc | hc
    · exact ih (n / b) c hc
    · rw [List.mem_singleton] at hc
      subst hc
      exact digitChar_ne_dash (lt_of_lt_of_le (Nat.mod_lt n hb0) hb16)

lemma parseDigitsAux_append (b acc : Nat) (l1 l2 : List Char) :
    parseDigitsAux b acc (l1 ++ l2) =
      (parseDigitsAux b acc l1).bind (fun a => parseDigitsAux b a l2) := by
  induction l1 generalizing acc with
  | nil => rfl
  | cons c cs ih =>
    rw [List.cons_append]
    rw [parseDigitsAux, parseDigitsAux]
    cases hv : digitVal c with
    | none => rfl
    | some d =>
      dsimp only
      by_cases hd : d < b
      · rw [if_pos hd, if_pos hd, ih]
      · rw [if_neg hd, if_neg hd]; rfl

lemma parseDigitsAux_render {b : Nat} (hb2 : 2 ≤ b) (hb16 : b ≤ 16)
    (w acc n : Nat) :
    parseDigitsAux b acc (renderNat b n w) =
      some (acc * b ^ w + n % b ^ w) := by
  induction w generalizing acc n with
  | zero => simp [renderNat, parseDigitsAux, Nat.mod_one]
  | succ w ih =>
    rw [renderNat, parseDigitsAux_append, ih]
    have hd : n % b < b := Nat.mod_lt _ (by omega)
    rw [Option.some_bind]
    rw [parseDigitsAux, digitVal_digitChar (lt_of_lt_of_le hd hb16)]
    dsimp only
    rw [if_pos hd, parseDigitsAux]
    congr 1
    have hmod : n % b ^ (w + 1) = n % b + b * (n / b % b ^ w) := by
      have hsp : b ^ (w + 1) = b * b ^ w := by
        rw [pow_succ, Nat.mul_comm]
      rw [hsp]
      exact @Nat.mod_mul b (b ^ w) n
    rw [hmod, pow_succ]
    ring

lemma parseDigits_render {b : Nat} (hb2 : 2 ≤ b) (hb16 : b ≤ 16)
    {w n : Nat} (h : n < b ^ w) :
    parseDigits b (renderNat b n w) = some n := by
  unfold parseDigits
  rw [parseDigitsAux_render hb2 hb16]
  simp [Nat.mod_eq_of_lt h]

lemma filter_ne_dash_eq_self {l : List Char} (h : ∀ c ∈ l, c ≠ '-') :
    l.filter (fun c => c != '-') = l := by
  rw [List.filter_eq_self]
  intro a ha
  simpa using h a ha

lemma take_drop_segments (d : List Char) :
    d.take 8 ++ (d.drop 8).take 4 ++ (d.drop 12).take 4 ++
      (d.drop 16).take 4 ++ d.drop 20 = d := by
  rw [List.append_assoc, List.append_assoc, List.append_assoc]
  have h12 : d.drop 12 = (d.drop 8).drop 4 := by
    rw [List.drop_drop]
  have h16 : d.drop 16 = (d.drop 12).drop 4 := by
    rw [List.drop_drop]
  have h20 : d.drop 20 = (d.drop 16).drop 4 := by
    rw [List.drop_drop]
  rw [h20, List.take_append_drop, h16, List.take_append_drop, h12,
    List.take_append_drop, List.take_append_drop]

lemma uuidParse_uuidStr {n : Nat} (h : n < 2 ^ 128) :
    uuidParse (uuidStr n) = some n := by
  unfold uuidParse uuidStr uuidChars
  have hd : ∀ c ∈ renderNat 16 n 32, c ≠ '-' :=
    mem_renderNat_ne_dash (by norm_num) (by norm_num) n 32
  set d := renderNat 16 n 32 with hdef
  have h8 : ∀ c ∈ d.take 8, c ≠ '-' := fun c hc => hd c (List.mem_of_mem_take hc)
  have h12 : ∀ c ∈ (d.drop 8).take 4, c ≠ '-' :=
    fun c hc => hd c (List.mem_of_mem_drop (List.mem_of_mem_take hc))
  have h16 : ∀ c ∈ (d.drop 12).take 4, c ≠ '-' :=
    fun c hc => hd c (List.mem_of_mem_drop (List.mem_of_mem_take hc))
  have h20 : ∀ c ∈ (d.drop 16).take 4, c ≠ '-' :=
    fun c hc => hd c (List.mem_of_mem_drop (List.mem_of_mem_take hc))
  have h32 : ∀ c ∈ d.drop 20, c ≠ '-' := fun c hc => hd c (List.mem_of_mem_drop hc)
  have hfil : (d.take 8 ++ '-' :: (d.drop 8).take 4 ++ '-' :: (d.drop 12).take 4 ++
      '-' :: (d.drop 16).take 4 ++ '-' :: d.drop 20).filter (fun c => c != '-') = d := by
    simp only [List.filter_append, List.filter_cons, bne_self_eq_false,
      Bool.false_eq_true, if_false]
    rw [filter_ne_dash_eq_self h8, filter_ne_dash_eq_self h12,
      filter_ne_dash_eq_self h16, filter_ne_dash_eq_self h20,
      filter_ne_dash_eq_self h32]
    exact take_drop_segments d
  dsimp only
  rw [hfil]
  have hlen : d.length = 32 := renderNat_length 16 n 32
  rw [hlen, if_pos rfl]
  have hpow : (16 : ℕ) ^ 32 = 2 ^ 128 := by norm_num
  exact parseDigits_render (by norm_num) (by norm_num) (by rw [hpow]; exact h)

lemma expectNat_render {b : Nat} (hb2 : 2 ≤ b) (hb16 : b ≤ 16)
    {k n : Nat} (rest : List Char) (h : n < b ^ k) :
    expectNat b k (renderNat b n k ++ rest) = some (n, rest) := by
  unfold expectNat
  have hl : (renderNat b n k).length = k := renderNat_length b n k
  rw [List.take_left' hl, List.drop_left' hl]
  simp [hl, parseDigits_render hb2 hb16 h]

lemma expectChar_cons (c : Char) (rest : List Char) :
    expectChar c (c :: rest) = some rest := by
  simp [expectChar]

lemma parseMicro_nil : parseMicro [] = some 0 := rfl

lemma parseMicro_render {m : Nat} (h : m < 10 ^ 6) :
    parseMicro ('.' :: renderNat 10 m 6) = some m := by
  rw [parseMicro]
  rw [if_pos rfl]
  have hl : (renderNat 10 m 6).length = 6 := renderNat_length 10 m 6
  rw [hl, if_pos (by norm_num), parseDigits_render (by norm_num) (by norm_num) h]
  simp

lemma expectSep_cons_T (rest : List Char) : expectSep ('T' :: rest) = some rest := by
  simp [expectSep]

lemma daysInMonth_le_31 (y m : Nat) : daysInMonth y m ≤ 31 := by
  unfold daysInMonth
  by_cases h2 : m = 2
  · rw [if_pos h2]
    split <;> omega
  · rw [if_neg h2]
    split <;> omega

lemma dtParse_isoStr {t : DateTimeV} (h : t.validB = true) :
    dtParse (isoStr t) = some t := by
  obtain ⟨y, mo, d, hh, mi, ss, mm⟩ := t
  simp only [DateTimeV.validB, Bool.and_eq_true, decide_eq_true_eq] at h
  obtain ⟨⟨⟨⟨⟨⟨⟨⟨⟨hy1, hy2⟩, hm1⟩, hm2⟩, hd1⟩, hd2⟩, hh1⟩, hmi1⟩, hs1⟩, hmm1⟩ := h
  have hdm : d ≤ 31 := le_trans hd2 (daysInMonth_le_31 y mo)
  have hy : y < 10 ^ 4 := by norm_num; omega
  have hmo : mo < 10 ^ 2 := by norm_num; omega
  have hd : d < 10 ^ 2 := by norm_num; omega
  have hhh : hh < 10 ^ 2 := by norm_num; omega
  have hmi : mi < 10 ^ 2 := by norm_num; omega
  have hss : ss < 10 ^ 2 := by norm_num; omega
  simp only [dtParse, isoStr, bind]
  simp only [List.append_assoc, List.cons_append]
  rw [expectNat_render (by norm_num) (by norm_num) _ hy, Option.some_bind]
  rw [expectChar_cons, Option.some_bind]
  rw [expectNat_render (by norm_num) (by norm_num) _ hmo, Option.some_bind]
  rw [expectChar_cons, Option.some_bind]
  rw [expectNat_render (by norm_num) (by norm_num) _ hd, Option.some_bind]
  rw [expectSep_cons_T, Option.some_bind]
  rw [expectNat_render (by norm_num) (by norm_num) _ hhh, Option.some_bind]
  rw [expectChar_cons, Option.some_bind]
  rw [expectNat_render (by norm_num) (by norm_num) _ hmi, Option.some_bind]
  rw [expectChar_cons, Option.some_bind]
  rw [expectNat_render (by norm_num) (by norm_num) _ hss, Option.some_bind]
  by_cases hmz : mm = 0
  · rw [if_pos hmz, parseMicro_nil, Option.some_bind]
    rw [hmz]
    rw [if_pos (by
      simp only [DateTimeV.validB, Bool.and_eq_true, decide_eq_true_eq]
      omega)]
  · rw [if_neg hmz, parseMicro_render hmm1, Option.some_bind]
    rw [if_pos (by
      simp only [DateTimeV.validB, Bool.and_eq_true, decide_eq_true_eq]
      omega)]

/-- C7: serializing any well-formed `LeadCreatedEvent` to its six-string
wire form (as the `xadd` call publishes it) and parsing the wire form back
with the `LeadEvent` schema yields the original field values. -/
theorem C7_wire_roundtrip (e : LeadEvent) (he : e.wf) :
    parseLeadEvent (serializeLeadEvent e) = some e := by
  obtain ⟨eid, ty, lid, note, chash, occ⟩ := e
  obtain ⟨h1, h2, h3, h4⟩ := he
  replace h3 : ty = "lead.created" := h3
  subst h3
  unfold serializeLeadEvent parseLeadEvent
  simp only [bind]
  rw [uuidParse_uuidStr h1, Option.some_bind]
  simp only [if_true]
  rw [uuidParse_uuidStr h2, Option.some_bind]
  rw [dtParse_isoStr h4, Option.some_bind]

/-- C7 witness: a concrete event round-trips through the wire form. -/
theorem C7_witness :
    parseLeadEvent (serializeLeadEvent ⟨1, "lead.created", 2, "note text",
      "abc123", ⟨2024, 5, 17, 10, 30, 0, 123456⟩⟩) =
      some ⟨1, "lead.created", 2, "note text", "abc123",
        ⟨2024, 5, 17, 10, 30, 0, 123456⟩⟩ :=
  C7_wire_roundtrip _ ⟨by decide, by decide, rfl, by decide⟩

end LeadTriage
